import Mathlib

/-!
Verification development for the string-analyzer service (src/main.py).

The Python code is shallowly embedded: Python `str` becomes Lean `String`
(operated on through its `List Char` of code points), the global dict
`STORE` becomes an explicit association list passed through every
operation, `raise HTTPException(status, detail)` becomes returning
`Except.error ⟨status, detail⟩`, and the wall-clock timestamp
`utc_now_iso_z()` becomes an explicit `now : String` argument.
Python's `str.lower` / whitespace handling are modelled on the ASCII
range (the only range any claim exercises).
-/

namespace StringAnalyzer

/-! ## Python string primitives -/

/-- Python `str.lower()` applied to one character (ASCII range). -/
def pyCharLower (c : Char) : Char :=
  if 65 ≤ c.toNat && c.toNat ≤ 90 then Char.ofNat (c.toNat + 32) else c

/-- Python `s.lower()` on a list of code points. -/
def pyLower (s : List Char) : List Char := s.map pyCharLower

/-- Python's whitespace class for `str.strip()` / `str.split()` (ASCII):
space, tab, newline, vertical tab, form feed, carriage return. -/
def pyIsSpace (c : Char) : Bool :=
  c.toNat == 32 || (9 ≤ c.toNat && c.toNat ≤ 13)

/-- Python `s.strip()`: remove leading and trailing whitespace. -/
def pyStrip (s : List Char) : List Char :=
  ((s.dropWhile pyIsSpace).reverse.dropWhile pyIsSpace).reverse

/-- Worker for `pySplit`: `cur` holds the current token reversed. -/
def pySplitGo : List Char → List Char → List (List Char)
  | [], cur => if cur.isEmpty then [] else [cur.reverse]
  | c :: rest, cur =>
    if pyIsSpace c then
      if cur.isEmpty then pySplitGo rest [] else cur.reverse :: pySplitGo rest []
    else pySplitGo rest (c :: cur)

/-- Python `s.split()` with no separator: whitespace-delimited non-empty
tokens, leading/trailing whitespace ignored. -/
def pySplit (s : List Char) : List (List Char) := pySplitGo s []

/-- Does `s` start with `sub`? (helper for substring containment). -/
def startsW : List Char → List Char → Bool
  | [], _ => true
  | _ :: _, [] => false
  | a :: as, b :: bs => a == b && startsW as bs

/-- Python `sub in s` substring containment on code-point lists. -/
def hasSub (sub : List Char) : List Char → Bool
  | [] => sub.isEmpty
  | b :: bs => startsW sub (b :: bs) || hasSub sub bs

/-! ## UTF-8 encoding (Python `str.encode("utf-8")`) -/

/-- UTF-8 bytes of a single code point. -/
def utf8Char (c : Char) : List Nat :=
  let n := c.toNat
  if n < 128 then [n]
  else if n < 2048 then [192 + n / 64, 128 + n % 64]
  else if n < 65536 then [224 + n / 4096, 128 + (n / 64) % 64, 128 + n % 64]
  else [240 + n / 262144, 128 + (n / 4096) % 64, 128 + (n / 64) % 64, 128 + n % 64]

/-- UTF-8 byte encoding of a string, each byte a `Nat < 256`. -/
def utf8Bytes (s : String) : List Nat := (s.data.map utf8Char).flatten

/-! ## SHA-256 (`hashlib.sha256`), on bytes as `Nat`s mod 2^32 -/

/-- Truncate to a 32-bit word. -/
def w32 (n : Nat) : Nat := n % 4294967296

/-- Rotate a 32-bit word right by `k` (word given as a `Nat`). -/
def rotWordR (k n : Nat) : Nat := w32 ((n >>> k) ||| (n <<< (32 - k)))

def upperSigma0 (x : Nat) : Nat := rotWordR 2 x ^^^ rotWordR 13 x ^^^ rotWordR 22 x

def upperSigma1 (x : Nat) : Nat := rotWordR 6 x ^^^ rotWordR 11 x ^^^ rotWordR 25 x

def lowerSigma0 (x : Nat) : Nat := rotWordR 7 x ^^^ rotWordR 18 x ^^^ (x >>> 3)

def lowerSigma1 (x : Nat) : Nat := rotWordR 17 x ^^^ rotWordR 19 x ^^^ (x >>> 10)

def chF (x y z : Nat) : Nat := (x &&& y) ^^^ ((x ^^^ 4294967295) &&& z)

def majF (x y z : Nat) : Nat := (x &&& y) ^^^ (x &&& z) ^^^ (y &&& z)

/-- The 64 SHA-256 round constants (FIPS 180-4, in decimal). -/
def K256 : List Nat :=
  [1116352408, 1899447441, 3049323471, 3921009573, 961987163,
   1508970993, 2453635748, 2870763221, 3624381080, 310598401,
   607225278, 1426881987, 1925078388, 2162078206, 2614888103,
   3248222580, 3835390401, 4022224774, 264347078, 604807628,
   770255983, 1249150122, 1555081692, 1996064986, 2554220882,
   2821834349, 2952996808, 3210313671, 3336571891, 3584528711,
   113926993, 338241895, 666307205, 773529912, 1294757372,
   1396182291, 1695183700, 1986661051, 2177026350, 2456956037,
   2730485921, 2820302411, 3259730800, 3345764771, 3516065817,
   3600352804, 4094571909, 275423344, 430227734, 506948616,
   659060556, 883997877, 958139571, 1322822218, 1537002063,
   1747873779, 1955562222, 2024104815, 2227730452, 2361852424,
   2428436474, 2756734187, 3204031479, 3329325298]

/-- The SHA-256 initial hash value (FIPS 180-4, in decimal). -/
def H256 : List Nat :=
  [1779033703, 3144134277, 1013904242, 2773480762,
   1359893119, 2600822924, 528734635, 1541459225]

/-- Big-endian 8-byte rendering of the bit length. -/
def beBytes8 (n : Nat) : List Nat :=
  [(n >>> 56) % 256, (n >>> 48) % 256, (n >>> 40) % 256, (n >>> 32) % 256,
   (n >>> 24) % 256, (n >>> 16) % 256, (n >>> 8) % 256, n % 256]

/-- SHA-256 padding: append 0x80, zero bytes to 56 mod 64, then the
64-bit big-endian bit length. -/
def sha256pad (msg : List Nat) : List Nat :=
  let L := msg.length
  let k := (120 - (L + 1) % 64) % 64
  msg ++ [128] ++ List.replicate k 0 ++ beBytes8 (8 * L)

/-- Split a byte list into 64-byte chunks. -/
def chunks64 (l : List Nat) : List (List Nat) :=
  if h : l = [] then []
  else l.take 64 :: chunks64 (l.drop 64)
termination_by l.length
decreasing_by
  have hp : 0 < l.length := List.length_pos.mpr h
  simp only [List.length_drop]
  omega

/-- Big-endian 32-bit words from bytes. -/
def words32 : List Nat → List Nat
  | a :: b :: c :: d :: rest => (((a * 256 + b) * 256 + c) * 256 + d) :: words32 rest
  | _ => []

/-- Extend the 16-word schedule by `n` further words. -/
def extendSched (w : List Nat) : Nat → List Nat
  | 0 => w
  | k + 1 =>
    let t := w32 (lowerSigma1 (w.getD (w.length - 2) 0) + w.getD (w.length - 7) 0 +
                  lowerSigma0 (w.getD (w.length - 15) 0) + w.getD (w.length - 16) 0)
    extendSched (w ++ [t]) k

/-- One SHA-256 compression round on the 8-word state. -/
def compressRound (st : List Nat) (kw : Nat × Nat) : List Nat :=
  match st with
  | [a, b, c, d, e, f, g, h] =>
    let t1 := w32 (h + upperSigma1 e + chF e f g + kw.1 + kw.2)
    let t2 := w32 (upperSigma0 a + majF a b c)
    [w32 (t1 + t2), a, b, c, w32 (d + t1), e, f, g]
  | other => other

/-- Compress one 64-byte block into the running hash. -/
def compressBlock (h : List Nat) (block : List Nat) : List Nat :=
  let w := extendSched (words32 block) 48
  let st := (K256.zip w).foldl compressRound h
  (h.zip st).map (fun p => w32 (p.1 + p.2))

/-- Big-endian 4-byte rendering of a 32-bit word. -/
def be4 (n : Nat) : List Nat :=
  [(n >>> 24) % 256, (n >>> 16) % 256, (n >>> 8) % 256, n % 256]

/-- SHA-256 digest (32 bytes) of a byte message. -/
def sha256bytes (msg : List Nat) : List Nat :=
  let hs := (chunks64 (sha256pad msg)).foldl compressBlock H256
  (hs.map be4).flatten

/-- Lowercase hex digit. -/
def hexDigit (n : Nat) : Char :=
  Char.ofNat (if n < 10 then 48 + n else 87 + n)

/-- Two lowercase hex characters of one byte. -/
def byteHex (b : Nat) : List Char := [hexDigit (b / 16), hexDigit (b % 16)]

/-- Embeds `sha256_of(text)` from src/main.py: lowercase hex SHA-256 digest of the
UTF-8 bytes of `text`. -/
def sha256_of (text : String) : String :=
  String.mk (((sha256bytes (utf8Bytes text)).map byteHex).flatten)

/-! ## Analyzer (`analyze_properties` and helpers) -/

/-- One step of the Python loop `freq[ch] = freq.get(ch, 0) + 1` on a dict
modelled as an insertion-ordered association list: an existing key keeps
its position, a new key is appended. -/
def bumpKey : List (Char × Nat) → Char → List (Char × Nat)
  | [], ch => [(ch, 1)]
  | (k, n) :: rest, ch =>
    if k == ch then (k, n + 1) :: rest else (k, n) :: bumpKey rest ch

/-- Embeds `character_frequency_map(value)` from src/main.py. -/
def character_frequency_map (value : String) : List (Char × Nat) :=
  value.data.foldl bumpKey []

/-- Python `set(value)` as the list of distinct characters in first-occurrence
order (only its size is used, for `unique_characters`). -/
def pySetChars (l : List Char) : List Char :=
  l.foldl (fun acc c => if acc.contains c then acc else acc.concat c) []

structure PropertySet where
  length : Nat
  is_palindrome : Bool
  unique_characters : Nat
  word_count : Nat
  sha256_hash : String
  character_frequency_map : List (Char × Nat)
deriving DecidableEq, Repr

/-- Embeds `analyze_properties(value)` from src/main.py. -/
def analyze_properties (value : String) : PropertySet :=
  PropertySet.mk
    value.length
    (pyLower value.data == pyLower value.data.reverse)
    (pySetChars value.data).length
    (if pyStrip value.data == [] then 0 else (pySplit (pyStrip value.data)).length)
    (sha256_of value)
    (character_frequency_map value)

structure Item where
  id : String
  value : String
  properties : PropertySet
  created_at : String
deriving DecidableEq, Repr

/-- Embeds `make_item(value)` from src/main.py; the wall-clock timestamp is the
explicit `now` argument. -/
def make_item (value : String) (now : String) : Item :=
  let props := analyze_properties value
  Item.mk props.sha256_hash value props now

/-! ## Record store (the global `STORE` dict, passed explicitly) -/

/-- Embeds `raise HTTPException(status_code, detail)` becomes this error value. -/
structure HTTPError where
  status : Nat
  detail : String
deriving DecidableEq, Repr

/-- The dict `STORE` as an insertion-ordered association list keyed by the
hex digest; operations below preserve key uniqueness exactly as a dict does. -/
abbrev Store := List (String × Item)

/-- Dict lookup `STORE.get(key)` / `STORE[key]`. -/
def dictGet : Store → String → Option Item
  | [], _ => none
  | (k, v) :: rest, key => if k == key then some v else dictGet rest key

/-- Dict assignment `STORE[key] = v`: replace in place or append. -/
def dictSet : Store → String → Item → Store
  | [], key, v => [(key, v)]
  | (k, w) :: rest, key, v =>
    if k == key then (k, v) :: rest else (k, w) :: dictSet rest key v

/-- Dict deletion `del STORE[key]` (keys are unique, so removing the first
occurrence is removal of the only one). -/
def dictDel : Store → String → Store
  | [], _ => []
  | (k, v) :: rest, key => if k == key then rest else (k, v) :: dictDel rest key

def conflictError : HTTPError :=
  HTTPError.mk 409 ("String already exists in the system")

def notFoundError : HTTPError :=
  HTTPError.mk 404 ("String does not exist in the system")

def nlParseError : HTTPError :=
  HTTPError.mk 400 ("Unable to parse natural language query")

def conflictingFiltersError : HTTPError :=
  HTTPError.mk 422 ("Query parsed but resulted in conflicting filters")

/-- Embeds `create_string` (POST /strings) from src/main.py, for a payload whose
`value` is a string; the store is threaded explicitly and returned
alongside the response. -/
def create_string (st : Store) (value : String) (now : String) :
    Except HTTPError Item × Store :=
  let item_id := sha256_of value
  match dictGet st item_id with
  | some _ => (Except.error conflictError, st)
  | none =>
    let item := make_item value now
    (Except.ok item, dictSet st item_id item)

/-- Embeds `get_string` (GET /strings/{string_value}) from src/main.py. -/
def get_string (st : Store) (string_value : String) : Except HTTPError Item :=
  let item_id := sha256_of string_value
  match dictGet st item_id with
  | none => Except.error notFoundError
  | some item => Except.ok item

/-- Embeds `delete_string` (DELETE /strings/{string_value}) from src/main.py. -/
def delete_string (st : Store) (string_value : String) :
    Except HTTPError Unit × Store :=
  let item_id := sha256_of string_value
  match dictGet st item_id with
  | none => (Except.error notFoundError, st)
  | some _ => (Except.ok (), dictDel st item_id)

/-! ## Structured filter engine (`get_all_strings`) -/

structure FilterParams where
  is_palindrome : Option Bool
  min_length : Option Int
  max_length : Option Int
  word_count : Option Int
  contains_character : Option String
deriving DecidableEq, Repr

/-- The chain of list comprehensions in `get_all_strings`, in source order. -/
def applyStructuredFilters (rs0 : List Item) (p : FilterParams) : List Item :=
  let rs1 := match p.is_palindrome with
    | none => rs0
    | some b => rs0.filter (fun r => r.properties.is_palindrome == b)
  let rs2 := match p.min_length with
    | none => rs1
    | some n => rs1.filter (fun r => decide (n ≤ (r.properties.length : Int)))
  let rs3 := match p.max_length with
    | none => rs2
    | some n => rs2.filter (fun r => decide ((r.properties.length : Int) ≤ n))
  let rs4 := match p.word_count with
    | none => rs3
    | some n => rs3.filter (fun r => (r.properties.word_count : Int) == n)
  match p.contains_character with
  | none => rs4
  | some s => rs4.filter (fun r => hasSub s.data r.value.data)

/-- Embeds `get_all_strings` (GET /strings) from src/main.py: validates
`contains_character`, then filters `STORE.values()`; the response's
`count`/`filters_applied` echo fields are derived data and omitted. -/
def get_all_strings (st : Store) (p : FilterParams) : Except HTTPError (List Item) :=
  match p.contains_character with
  | some s =>
    if s.length != 1 then
      Except.error (HTTPError.mk 400 ("contains_character must be a single character"))
    else Except.ok (applyStructuredFilters (st.map Prod.snd) p)
  | none => Except.ok (applyStructuredFilters (st.map Prod.snd) p)

/-! ## Natural-language filter translator (`natural_language_filter`)

The three `re.search` patterns are embedded as leftmost-match scanners.
Each pattern is a literal word, then `\s+`, then a character class; since
whitespace is disjoint from digits/letters, the greedy leftmost-match
semantics of `re.search` reduce to: first position where the literal
matches, maximal whitespace run (non-empty), then the class. -/

/-- Strip a literal from the front of `s`; `some rest` on success. -/
def dropLit : List Char → List Char → Option (List Char)
  | [], s => some s
  | _ :: _, [] => none
  | a :: as, b :: bs => if a == b then dropLit as bs else none

/-- The regex class `[a-z]`. -/
def isLowerAZ (c : Char) : Bool := 97 ≤ c.toNat && c.toNat ≤ 122

/-- The regex class `\w` (ASCII): letters, digits, underscore. -/
def isWordChar (c : Char) : Bool := c.isAlpha || c.isDigit || c == '_'

/-- Embeds `longer than\s+(\d+)` anchored at the front: the captured number. -/
def longerThanAt (s : List Char) : Option Nat :=
  match dropLit ("longer than").data s with
  | none => none
  | some rest =>
    if (rest.takeWhile pyIsSpace).isEmpty then none
    else
      let ds := (rest.dropWhile pyIsSpace).takeWhile Char.isDigit
      if ds.isEmpty then none
      else some (ds.foldl (fun n c => 10 * n + (c.toNat - 48)) 0)

/-- Embeds `re.search(r"longer than\s+(\d+)", q)` with `int` applied to group 1. -/
def findLongerThan : List Char → Option Nat
  | [] => none
  | c :: rest =>
    match longerThanAt (c :: rest) with
    | some n => some n
    | none => findLongerThan rest

/-- Embeds `letter\s+([a-z])` anchored at the front: the captured character. -/
def letterAt (s : List Char) : Option Char :=
  match dropLit ("letter").data s with
  | none => none
  | some rest =>
    if (rest.takeWhile pyIsSpace).isEmpty then none
    else
      match rest.dropWhile pyIsSpace with
      | c :: _ => if isLowerAZ c then some c else none
      | [] => none

/-- Embeds `re.search(r"letter\s+([a-z])", q)`: group 1 of the leftmost match. -/
def findLetter : List Char → Option Char
  | [] => none
  | c :: rest =>
    match letterAt (c :: rest) with
    | some x => some x
    | none => findLetter rest

/-- Embeds `containing\s+([a-z])\b` anchored at the front: the captured character. -/
def containingAt (s : List Char) : Option Char :=
  match dropLit ("containing").data s with
  | none => none
  | some rest =>
    if (rest.takeWhile pyIsSpace).isEmpty then none
    else
      match rest.dropWhile pyIsSpace with
      | c :: after =>
        if isLowerAZ c && (match after with | [] => true | d :: _ => !isWordChar d)
        then some c else none
      | [] => none

/-- Embeds `re.search(r"containing\s+([a-z])\b", q)`: group 1 of the leftmost match. -/
def findContaining : List Char → Option Char
  | [] => none
  | c :: rest =>
    match containingAt (c :: rest) with
    | some x => some x
    | none => findContaining rest

/-- The `parsed_filters` dict; a `none` field is an absent key. The code
never assigns `max_length`, but the key participates in the conflict check
so it is kept. -/
structure ParsedFilters where
  is_palindrome : Option Bool
  word_count : Option Nat
  min_length : Option Nat
  max_length : Option Nat
  contains_character : Option Char
deriving DecidableEq, Repr

/-- Embeds `if not parsed_filters:` — the dict is empty iff no pattern set a key
(a key explicitly set to `False` still counts as present). -/
def ParsedFilters.isEmptyPF (pf : ParsedFilters) : Bool :=
  pf.is_palindrome.isNone && pf.word_count.isNone && pf.min_length.isNone &&
  pf.max_length.isNone && pf.contains_character.isNone

/-- Lines 163–195 of src/main.py: accumulate `parsed_filters` from the
lowercased stripped query `q`, in source order. -/
def parsedFiltersOf (q : List Char) : ParsedFilters :=
  let pal := hasSub ("palindrom").data q || hasSub ("palindrome").data q
  let pf1 := ParsedFilters.mk (if pal then some true else none) none none none none
  let pf2 :=
    if hasSub ("single word").data q || hasSub ("single-word").data q then
      ParsedFilters.mk pf1.is_palindrome (some 1) none none none
    else pf1
  let pf3 := match findLongerThan q with
    | some n => ParsedFilters.mk pf2.is_palindrome pf2.word_count (some (n + 1)) none none
    | none => pf2
  let pf4 := match findLetter q with
    | some c => ParsedFilters.mk pf3.is_palindrome pf3.word_count pf3.min_length none (some c)
    | none => pf3
  let pf5 := match findContaining q with
    | some c =>
      if pf4.contains_character.isNone then
        ParsedFilters.mk pf4.is_palindrome pf4.word_count pf4.min_length none (some c)
      else pf4
    | none => pf4
  if hasSub ("first vowel").data q || (hasSub ("first").data q && hasSub ("vowel").data q) then
    ParsedFilters.mk (some (pf5.is_palindrome.getD false || pal)) pf5.word_count
      pf5.min_length none (some (pf5.contains_character.getD ('a')))
  else pf5

/-- Lines 207–223 of src/main.py: apply `parsed_filters` to the records;
the character filter lowercases both sides. -/
def applyNLFilters (rs0 : List Item) (pf : ParsedFilters) : List Item :=
  let rs1 := match pf.is_palindrome with
    | none => rs0
    | some b => rs0.filter (fun r => r.properties.is_palindrome == b)
  let rs2 := match pf.min_length with
    | none => rs1
    | some n => rs1.filter (fun r => decide (n ≤ r.properties.length))
  let rs3 := match pf.max_length with
    | none => rs2
    | some n => rs2.filter (fun r => decide (r.properties.length ≤ n))
  let rs4 := match pf.word_count with
    | none => rs3
    | some n => rs3.filter (fun r => r.properties.word_count == n)
  match pf.contains_character with
  | none => rs4
  | some c => rs4.filter (fun r => hasSub [pyCharLower c] (pyLower r.value.data))

/-- Embeds `q = query.lower().strip()` from `natural_language_filter`. -/
def nlQuery (query : String) : List Char := pyStrip (pyLower query.data)

/-- Embeds `natural_language_filter` (GET /strings/filter-by-natural-language)
from src/main.py: lowercase+strip the query, parse, reject an empty parse
(400) or conflicting bounds (422), else filter the store; returns the data
list and the `parsed_filters` echoed in `interpreted_query`. -/
def natural_language_filter (st : Store) (query : String) :
    Except HTTPError (List Item × ParsedFilters) :=
  let q := nlQuery query
  let pf := parsedFiltersOf q
  if pf.isEmptyPF then Except.error nlParseError
  else
    match pf.min_length, pf.max_length with
    | some mn, some mx =>
      if mx < mn then Except.error conflictingFiltersError
      else Except.ok (applyNLFilters (st.map Prod.snd) pf, pf)
    | _, _ => Except.ok (applyNLFilters (st.map Prod.snd) pf, pf)

/-! ## Lemmas about the analyzer -/

/-- Per-character lowercasing commutes with reversal. -/
theorem pyLower_reverse (l : List Char) : pyLower l.reverse = (pyLower l).reverse := by
  simp [pyLower]

/-- The keys of a frequency map. -/
def keysOf (f : List (Char × Nat)) : List Char := f.map Prod.fst

/-- The sum of the counts of a frequency map. -/
def sumVals (f : List (Char × Nat)) : Nat := (f.map Prod.snd).sum

theorem sumVals_bumpKey (f : List (Char × Nat)) (c : Char) :
    sumVals (bumpKey f c) = sumVals f + 1 := by
  induction f with
  | nil => rfl
  | cons p rest ih =>
    obtain ⟨k, n⟩ := p
    simp only [bumpKey]
    split
    · simp [sumVals]
      omega
    · simp only [sumVals, List.map_cons, List.sum_cons] at ih ⊢
      omega

theorem keysOf_bumpKey (f : List (Char × Nat)) (c : Char) :
    keysOf (bumpKey f c) = if c ∈ keysOf f then keysOf f else keysOf f ++ [c] := by
  induction f with
  | nil => simp [bumpKey, keysOf]
  | cons p rest ih =>
    obtain ⟨k, n⟩ := p
    simp only [bumpKey]
    split
    · next h =>
      have hk : k = c := by simpa using h
      subst hk
      simp [keysOf]
    · next h =>
      have hk : ¬(k = c) := by simpa using h
      simp only [keysOf, List.map_cons] at ih ⊢
      rw [ih]
      by_cases hc : c ∈ List.map Prod.fst rest
      · simp [hc, hk, Ne.symm hk]
      · simp [hc, hk, Ne.symm hk]

theorem nodup_keysOf_bumpKey (f : List (Char × Nat)) (c : Char)
    (h : (keysOf f).Nodup) : (keysOf (bumpKey f c)).Nodup := by
  rw [keysOf_bumpKey]
  split
  · exact h
  · next hc =>
    simp [List.nodup_append, h, hc]

theorem sumVals_foldl (l : List Char) (f : List (Char × Nat)) :
    sumVals (l.foldl bumpKey f) = sumVals f + l.length := by
  induction l generalizing f with
  | nil => simp
  | cons c rest ih =>
    simp only [List.foldl_cons, List.length_cons, ih, sumVals_bumpKey]
    omega

theorem mem_keysOf_foldl (l : List Char) (f : List (Char × Nat)) (x : Char) :
    x ∈ keysOf (l.foldl bumpKey f) ↔ x ∈ keysOf f ∨ x ∈ l := by
  induction l generalizing f with
  | nil => simp
  | cons c rest ih =>
    simp only [List.foldl_cons, ih, keysOf_bumpKey, List.mem_cons]
    split
    · next hc =>
      constructor
      · tauto
      · rintro (h | h | h)
        · exact Or.inl h
        · exact Or.inl (h ▸ hc)
        · exact Or.inr h
    · simp only [List.mem_append, List.mem_singleton]
      tauto

theorem nodup_keysOf_foldl (l : List Char) (f : List (Char × Nat))
    (h : (keysOf f).Nodup) : (keysOf (l.foldl bumpKey f)).Nodup := by
  induction l generalizing f with
  | nil => exact h
  | cons c rest ih => exact ih _ (nodup_keysOf_bumpKey _ _ h)

/-! ## Claims about the analyzer -/

/-- C7: `analyze(s).is_palindrome` is true iff the characters of `s`,
compared case-insensitively (after per-character lowercasing), read the
same forwards and backwards; the empty string is a palindrome and
"Racecar" is a palindrome. -/
theorem claim_C7_palindrome (s : String) :
    ((analyze_properties s).is_palindrome = true ↔
      pyLower s.data = (pyLower s.data).reverse)
    ∧ (analyze_properties ("")).is_palindrome = true
    ∧ (analyze_properties ("Racecar")).is_palindrome = true := by
  refine ⟨?_, by decide, by decide⟩
  show (pyLower s.data == pyLower s.data.reverse) = true ↔ _
  rw [pyLower_reverse, beq_iff_eq]

/-- C8: `analyze(s).length` is the number of code points of `s`; the keys
of the character frequency map are exactly the distinct characters of `s`
(each character of `s` is a key, and the keys are pairwise distinct); and
the counts sum to the length. -/
theorem claim_C8_frequency_map (s : String) :
    (analyze_properties s).length = s.data.length
    ∧ (∀ c, c ∈ keysOf (analyze_properties s).character_frequency_map ↔ c ∈ s.data)
    ∧ (keysOf (analyze_properties s).character_frequency_map).Nodup
    ∧ sumVals (analyze_properties s).character_frequency_map
        = (analyze_properties s).length := by
  refine ⟨rfl, ?_, ?_, ?_⟩
  · intro c
    show c ∈ keysOf (StringAnalyzer.character_frequency_map s) ↔ _
    rw [StringAnalyzer.character_frequency_map, mem_keysOf_foldl]
    simp [keysOf]
  · exact nodup_keysOf_foldl _ _ (by simp [keysOf])
  · show sumVals (StringAnalyzer.character_frequency_map s) = _
    rw [StringAnalyzer.character_frequency_map, sumVals_foldl]
    show sumVals [] + s.data.length = s.data.length
    simp [sumVals]

/-! ## Lemmas about the store -/

/-- A store with pairwise-distinct keys — the invariant a Python dict
maintains by construction. -/
def goodStore (st : Store) : Prop := (st.map Prod.fst).Nodup

theorem dictGet_dictSet_self (st : Store) (k : String) (v : Item) :
    dictGet (dictSet st k v) k = some v := by
  induction st with
  | nil => simp [dictSet, dictGet]
  | cons p rest ih =>
    obtain ⟨k', w⟩ := p
    simp only [dictSet]
    split
    · next h => simp [dictGet, h]
    · next h => simp [dictGet, h, ih]

theorem dictGet_eq_none_of_not_mem (st : Store) (k : String)
    (h : k ∉ st.map Prod.fst) : dictGet st k = none := by
  induction st with
  | nil => rfl
  | cons p rest ih =>
    obtain ⟨k', v⟩ := p
    simp only [List.map_cons, List.mem_cons] at h
    push_neg at h
    have hne : (k' == k) = false := by
      simp [Ne.symm h.1]
    simp [dictGet, hne, ih h.2]

theorem dictGet_dictDel_self (st : Store) (k : String) (hg : goodStore st) :
    dictGet (dictDel st k) k = none := by
  induction st with
  | nil => rfl
  | cons p rest ih =>
    obtain ⟨k', v⟩ := p
    simp only [goodStore, List.map_cons, List.nodup_cons] at hg
    simp only [dictDel]
    split
    · next he =>
      have hk : k' = k := by simpa using he
      subst hk
      exact dictGet_eq_none_of_not_mem rest k' hg.1
    · next he => simp [dictGet, he, ih hg.2]

theorem dictDel_of_absent (st : Store) (k : String) (h : dictGet st k = none) :
    dictDel st k = st := by
  induction st with
  | nil => rfl
  | cons p rest ih =>
    obtain ⟨k', v⟩ := p
    simp only [dictGet] at h
    simp only [dictDel]
    split
    · next he => simp [he] at h
    · next he =>
      rw [ih]
      simpa [he] using h

/-! ## Claims about the store -/

/-- C4: if a record with `identity(v)` is already stored, `create(v)` fails
with the 409 conflict error and returns the store unchanged (nothing
overwritten, nothing inserted); hence creating the same value twice yields
a success and then a conflict that again leaves the store unchanged. -/
theorem claim_C4_duplicate_create (st : Store) (v now now2 : String) :
    (∀ r, dictGet st (sha256_of v) = some r →
      create_string st v now = (Except.error conflictError, st))
    ∧ (∀ it st1, create_string st v now = (Except.ok it, st1) →
      create_string st1 v now2 = (Except.error conflictError, st1)) := by
  constructor
  · intro r h
    simp [create_string, h]
  · intro it st1 h
    simp only [create_string] at h
    match hm : dictGet st (sha256_of v) with
    | some r => rw [hm] at h; simp at h
    | none =>
      rw [hm] at h
      simp only [Prod.mk.injEq, Except.ok.injEq] at h
      obtain ⟨h1, h2⟩ := h
      subst h2
      simp [create_string, dictGet_dictSet_self]

/-- C5: after a successful `create(v)`, `get(v)` on the resulting store
succeeds and returns the created record — lookup uses the same hashing
rule as creation. -/
theorem claim_C5_create_get_roundtrip (st : Store) (v now : String)
    (it : Item) (st1 : Store)
    (h : create_string st v now = (Except.ok it, st1)) :
    get_string st1 v = Except.ok it := by
  simp only [create_string] at h
  match hm : dictGet st (sha256_of v) with
  | some r => rw [hm] at h; simp at h
  | none =>
    rw [hm] at h
    simp only [Prod.mk.injEq, Except.ok.injEq] at h
    obtain ⟨h1, h2⟩ := h
    subst h1 h2
    simp [get_string, dictGet_dictSet_self]

/-- C5 witness: creating "level" in the empty store and getting "level"
returns the created record, whose properties say palindrome, length 5,
one word. -/
theorem claim_C5_create_get_roundtrip_witness :
    get_string ((create_string [] ("level") ("t0")).2) ("level")
      = Except.ok (make_item ("level") ("t0"))
    ∧ (make_item ("level") ("t0")).properties.is_palindrome = true
    ∧ (make_item ("level") ("t0")).properties.length = 5
    ∧ (make_item ("level") ("t0")).properties.word_count = 1 :=
  ⟨claim_C5_create_get_roundtrip [] ("level") ("t0") (make_item ("level") ("t0"))
      ((create_string [] ("level") ("t0")).2) rfl,
   by decide, rfl, by decide⟩

/-- C4 witness: creating "abc" twice from the empty store; the second
create conflicts and leaves the one-record store unchanged. -/
theorem claim_C4_duplicate_create_witness :
    create_string ((create_string [] ("abc") ("t0")).2) ("abc") ("t1")
      = (Except.error conflictError, (create_string [] ("abc") ("t0")).2) :=
  (claim_C4_duplicate_create [] ("abc") ("t0") ("t1")).2
    (make_item ("abc") ("t0")) ((create_string [] ("abc") ("t0")).2) rfl

/-- C9: deleting a stored value succeeds and a subsequent `get` of it fails
with the 404 error; deleting an absent value fails with the 404 error and
leaves the store unchanged. (`goodStore` is the dict key-uniqueness
invariant.) -/
theorem claim_C9_delete_visibility (st : Store) (v : String) (hg : goodStore st) :
    ((dictGet st (sha256_of v)).isSome = true →
      (delete_string st v).1 = Except.ok ()
      ∧ get_string (delete_string st v).2 v = Except.error notFoundError)
    ∧ (dictGet st (sha256_of v) = none →
      delete_string st v = (Except.error notFoundError, st)) := by
  constructor
  · intro h
    match hm : dictGet st (sha256_of v) with
    | none => rw [hm] at h; simp at h
    | some it =>
      refine ⟨by simp [delete_string, hm], ?_⟩
      simp [delete_string, get_string, hm, dictGet_dictDel_self st _ hg]
  · intro h
    simp [delete_string, h]

/-- C9 witness: create "abc", delete it, and the subsequent get 404s. -/
theorem claim_C9_delete_visibility_witness :
    (delete_string ((create_string [] ("abc") ("t0")).2) ("abc")).1 = Except.ok ()
    ∧ get_string (delete_string ((create_string [] ("abc") ("t0")).2) ("abc")).2 ("abc")
      = Except.error notFoundError :=
  (claim_C9_delete_visibility ((create_string [] ("abc") ("t0")).2) ("abc")
      (by simp [goodStore, create_string, dictGet, dictSet])).1
    (by simp [create_string, dictGet, dictSet])

/-! ## Claims about the structured filter engine -/

/-- C1 (amended): with a valid single-character filter value `c`, the
structured `contains_character` filter keeps a record iff `c` occurs in
the record's value under case-sensitive (exact) comparison. -/
theorem claim_C1_contains_filter (st : Store) (c : String) (r : Item)
    (rs : List Item) (hc : c.length = 1)
    (h : get_all_strings st (FilterParams.mk none none none none (some c))
          = Except.ok rs) :
    r ∈ rs ↔ r ∈ st.map Prod.snd ∧ hasSub c.data r.value.data = true := by
  simp only [get_all_strings, hc, bne_self_eq_false, Bool.false_eq_true,
    if_false, Except.ok.injEq] at h
  subst h
  simp [applyStructuredFilters, List.mem_filter]

/-- Record holding the single uppercase letter value "A". -/
def itemUpperA : Item := make_item ("A") ("t0")

/-- C1 counterexample: the value "A" contains the letter 'a' under
case-insensitive comparison, but filtering the store holding it with
contains_character "a" returns no records. -/
theorem claim_C1_contains_filter_counterexample :
    hasSub (pyLower ("a").data) (pyLower itemUpperA.value.data) = true
    ∧ get_all_strings [(sha256_of ("A"), itemUpperA)]
        (FilterParams.mk none none none none (some ("a"))) = Except.ok [] :=
  ⟨by decide, rfl⟩

/-- Record holding the single lowercase letter value "a". -/
def itemLowerA : Item := make_item ("a") ("t0")

/-- C1 witness: a store holding "a", filtered with "a", keeps that record;
the equivalence is discharged at this concrete input. -/
theorem claim_C1_contains_filter_witness :
    itemLowerA ∈ [itemLowerA]
    ↔ itemLowerA ∈ ([(sha256_of ("a"), itemLowerA)] : Store).map Prod.snd
      ∧ hasSub ("a").data itemLowerA.value.data = true :=
  claim_C1_contains_filter [(sha256_of ("a"), itemLowerA)] ("a") itemLowerA
    [itemLowerA] rfl rfl

/-! ## Lemmas about the natural-language translator -/

theorem startsW_of_append (l1 l2 s : List Char)
    (h : startsW (l1 ++ l2) s = true) : startsW l1 s = true := by
  induction l1 generalizing s with
  | nil => rfl
  | cons a as ih =>
    cases s with
    | nil => simp [startsW] at h
    | cons b bs =>
      simp only [List.cons_append, startsW, Bool.and_eq_true] at h ⊢
      exact ⟨h.1, ih bs h.2⟩

theorem hasSub_of_append (l1 l2 s : List Char)
    (h : hasSub (l1 ++ l2) s = true) : hasSub l1 s = true := by
  induction s with
  | nil =>
    simp only [hasSub, List.isEmpty_iff, List.append_eq_nil] at h
    simp [hasSub, h.1]
  | cons b bs ih =>
    simp only [hasSub, Bool.or_eq_true] at h ⊢
    rcases h with h | h
    · exact Or.inl (startsW_of_append _ _ _ h)
    · exact Or.inr (ih h)

/-- No "palindrom" substring implies no "palindrome" substring. -/
theorem hasSub_palindrome_false (q : List Char)
    (h : hasSub ("palindrom").data q = false) :
    hasSub ("palindrome").data q = false := by
  cases hB : hasSub ("palindrome").data q
  · rfl
  · exfalso
    have he : ("palindrome").data = ("palindrom").data ++ [('e')] := by decide
    rw [he] at hB
    rw [hasSub_of_append _ _ _ hB] at h
    simp at h

theorem max_length_parsedFiltersOf (q : List Char) :
    (parsedFiltersOf q).max_length = none := by
  unfold parsedFiltersOf
  cases hW : (hasSub ("single word").data q || hasSub ("single-word").data q) <;>
  cases hLT : findLongerThan q <;>
  cases hL : findLetter q <;>
  cases hC : findContaining q <;>
  cases hF : (hasSub ("first vowel").data q
      || (hasSub ("first").data q && hasSub ("vowel").data q)) <;>
    simp

theorem word_count_parsedFiltersOf (q : List Char) :
    (parsedFiltersOf q).word_count =
      if hasSub ("single word").data q || hasSub ("single-word").data q
      then some 1 else none := by
  unfold parsedFiltersOf
  cases hW : (hasSub ("single word").data q || hasSub ("single-word").data q) <;>
  cases hLT : findLongerThan q <;>
  cases hL : findLetter q <;>
  cases hC : findContaining q <;>
  cases hF : (hasSub ("first vowel").data q
      || (hasSub ("first").data q && hasSub ("vowel").data q)) <;>
    simp

theorem contains_character_parsedFiltersOf (q : List Char) :
    (parsedFiltersOf q).contains_character =
      if hasSub ("first vowel").data q
          || (hasSub ("first").data q && hasSub ("vowel").data q) then
        some (((match findLetter q with
                | some c => some c
                | none => findContaining q) : Option Char).getD ('a'))
      else
        match findLetter q with
        | some c => some c
        | none => findContaining q := by
  unfold parsedFiltersOf
  cases hW : (hasSub ("single word").data q || hasSub ("single-word").data q) <;>
  cases hLT : findLongerThan q <;>
  cases hL : findLetter q <;>
  cases hC : findContaining q <;>
  cases hF : (hasSub ("first vowel").data q
      || (hasSub ("first").data q && hasSub ("vowel").data q)) <;>
    simp [hL, hC]

theorem is_palindrome_parsedFiltersOf (q : List Char) :
    (parsedFiltersOf q).is_palindrome =
      if hasSub ("first vowel").data q
          || (hasSub ("first").data q && hasSub ("vowel").data q) then
        some (hasSub ("palindrom").data q || hasSub ("palindrome").data q)
      else if hasSub ("palindrom").data q || hasSub ("palindrome").data q
           then some true else none := by
  unfold parsedFiltersOf
  cases hP : (hasSub ("palindrom").data q || hasSub ("palindrome").data q) <;>
  cases hW : (hasSub ("single word").data q || hasSub ("single-word").data q) <;>
  cases hLT : findLongerThan q <;>
  cases hL : findLetter q <;>
  cases hC : findContaining q <;>
  cases hF : (hasSub ("first vowel").data q
      || (hasSub ("first").data q && hasSub ("vowel").data q)) <;>
    simp [hP]

/-- Membership in the applied natural-language filters implies the
palindrome constraint when `parsed_filters` carries one. -/
theorem pal_of_mem_applyNLFilters (rs0 : List Item) (pf : ParsedFilters)
    (b : Bool) (r : Item) (hb : pf.is_palindrome = some b)
    (hr : r ∈ applyNLFilters rs0 pf) : r.properties.is_palindrome = b := by
  unfold applyNLFilters at hr
  rw [hb] at hr
  cases hm1 : pf.min_length <;> rw [hm1] at hr <;>
  cases hm2 : pf.max_length <;> rw [hm2] at hr <;>
  cases hm3 : pf.word_count <;> rw [hm3] at hr <;>
  cases hm4 : pf.contains_character <;> rw [hm4] at hr <;>
  simp only [List.mem_filter, Bool.and_eq_true, beq_iff_eq] at hr <;>
  tauto

/-! ## Claims about the natural-language translator -/

/-- C2 (amended): the vowel default applies when the lowercased query
contains "first vowel" (or both "first" and "vowel"), not on "vowel"
alone; then, if neither letter pattern matched, contains_character
defaults to 'a', while an explicit "letter c" match takes precedence and
is never overwritten by the default. -/
theorem claim_C2_vowel_default (query : String)
    (h1 : hasSub ("first").data (nlQuery query) = true)
    (h2 : hasSub ("vowel").data (nlQuery query) = true) :
    (findLetter (nlQuery query) = none → findContaining (nlQuery query) = none →
      (parsedFiltersOf (nlQuery query)).contains_character = some ('a'))
    ∧ (∀ c, findLetter (nlQuery query) = some c →
      (parsedFiltersOf (nlQuery query)).contains_character = some c) := by
  have hcc := contains_character_parsedFiltersOf (nlQuery query)
  rw [h1, h2] at hcc
  simp only [Bool.and_self, Bool.or_true, if_true] at hcc
  constructor
  · intro hl hc
    rw [hcc, hl, hc]
    rfl
  · intro c hl
    rw [hcc, hl]
    rfl

/-- C2 witness: "the first vowel" defaults to 'a'; "first vowel letter z"
keeps the explicit 'z'. -/
theorem claim_C2_vowel_default_witness :
    (parsedFiltersOf (nlQuery ("the first vowel"))).contains_character = some ('a')
    ∧ (parsedFiltersOf (nlQuery ("first vowel letter z"))).contains_character
        = some ('z') :=
  ⟨(claim_C2_vowel_default ("the first vowel") (by decide) (by decide)).1
      (by decide) (by decide),
   (claim_C2_vowel_default ("first vowel letter z") (by decide) (by decide)).2
      ('z') (by decide)⟩

/-- C2 counterexample: "palindromic vowel" contains "vowel" and matches no
letter pattern, yet the translator does not set contains_character at all
(the heuristic also requires "first"). -/
theorem claim_C2_vowel_default_counterexample :
    hasSub ("vowel").data (nlQuery ("palindromic vowel")) = true
    ∧ findLetter (nlQuery ("palindromic vowel")) = none
    ∧ findContaining (nlQuery ("palindromic vowel")) = none
    ∧ (parsedFiltersOf (nlQuery ("palindromic vowel"))).contains_character
        = none
    ∧ natural_language_filter [] ("palindromic vowel")
        = Except.ok ([], ParsedFilters.mk (some true) none none none none) :=
  ⟨by decide, by decide, by decide, by decide, rfl⟩

/-- C3 (amended): a query whose lowercased text contains "single word" or
"single-word" is translated with word_count = 1; the phrasing "one word"
is not recognized by the code. -/
theorem claim_C3_single_word (query : String)
    (h : (hasSub ("single word").data (nlQuery query)
          || hasSub ("single-word").data (nlQuery query)) = true) :
    (parsedFiltersOf (nlQuery query)).word_count = some 1 := by
  have hw := word_count_parsedFiltersOf (nlQuery query)
  rw [h] at hw
  simpa using hw

/-- C3 witness: the spec's example query sets word_count = 1. -/
theorem claim_C3_single_word_witness :
    (parsedFiltersOf (nlQuery ("all single word palindromic strings"))).word_count
      = some 1 :=
  claim_C3_single_word ("all single word palindromic strings") (by decide)

/-- C3 counterexample: "one word strings" contains "one word" but the
translator recognizes nothing and fails with the 400 parse error instead
of producing word_count = 1. -/
theorem claim_C3_single_word_counterexample :
    hasSub ("one word").data (nlQuery ("one word strings")) = true
    ∧ natural_language_filter [] ("one word strings")
        = Except.error nlParseError :=
  ⟨by decide, rfl⟩

/-- C6 (amended): when none of the code's patterns match — no palindrome
substring, no single-word phrasing, no "longer than N", no "letter c", no
"containing c", and no first-vowel heuristic — the translator fails with
the 400 parse error, returned as a value (never a crash). -/
theorem claim_C6_parse_error (st : Store) (query : String)
    (h1 : hasSub ("palindrom").data (nlQuery query) = false)
    (h2 : (hasSub ("single word").data (nlQuery query)
           || hasSub ("single-word").data (nlQuery query)) = false)
    (h3 : findLongerThan (nlQuery query) = none)
    (h4 : findLetter (nlQuery query) = none)
    (h5 : findContaining (nlQuery query) = none)
    (h6 : (hasSub ("first vowel").data (nlQuery query)
           || (hasSub ("first").data (nlQuery query)
               && hasSub ("vowel").data (nlQuery query))) = false) :
    natural_language_filter st query = Except.error nlParseError := by
  have h1e := hasSub_palindrome_false _ h1
  have hpf : parsedFiltersOf (nlQuery query)
      = ParsedFilters.mk none none none none none := by
    unfold parsedFiltersOf
    rw [h1, h1e, h2, h3, h4, h5, h6]
    rfl
  simp [natural_language_filter, hpf, ParsedFilters.isEmptyPF]

/-- C6 witness: the spec's example "banana bread" yields the parse error. -/
theorem claim_C6_parse_error_witness :
    natural_language_filter [] ("banana bread") = Except.error nlParseError :=
  claim_C6_parse_error [] ("banana bread") (by decide) (by decide) (by decide)
    (by decide) (by decide) (by decide)

/-- C6 counterexample: "containing x" matches none of the patterns the
claim lists (palindrome, single-word, longer-than, letter, vowel), yet the
translator succeeds through the unlisted "containing c" pattern instead of
failing with the parse error. -/
theorem claim_C6_parse_error_counterexample :
    hasSub ("palindrom").data (nlQuery ("containing x")) = false
    ∧ (hasSub ("single word").data (nlQuery ("containing x"))
       || hasSub ("single-word").data (nlQuery ("containing x"))) = false
    ∧ findLongerThan (nlQuery ("containing x")) = none
    ∧ findLetter (nlQuery ("containing x")) = none
    ∧ hasSub ("vowel").data (nlQuery ("containing x")) = false
    ∧ natural_language_filter [] ("containing x")
        = Except.ok ([], ParsedFilters.mk none none none none (some ('x'))) :=
  ⟨by decide, by decide, by decide, by decide, by decide, rfl⟩

/-- C10: a query whose lowercased text contains "first" and "vowel" but
not "palindrom" is translated with an explicit is_palindrome = false key,
and every returned record is non-palindromic. -/
theorem claim_C10_first_vowel_nonpalindrome (st : Store) (query : String)
    (h1 : hasSub ("first").data (nlQuery query) = true)
    (h2 : hasSub ("vowel").data (nlQuery query) = true)
    (h3 : hasSub ("palindrom").data (nlQuery query) = false) :
    ∃ rs, natural_language_filter st query
        = Except.ok (rs, parsedFiltersOf (nlQuery query))
      ∧ (parsedFiltersOf (nlQuery query)).is_palindrome = some false
      ∧ ∀ r ∈ rs, r.properties.is_palindrome = false := by
  have h3e := hasSub_palindrome_false _ h3
  have hip : (parsedFiltersOf (nlQuery query)).is_palindrome = some false := by
    have hp := is_palindrome_parsedFiltersOf (nlQuery query)
    rw [h1, h2, h3, h3e] at hp
    simpa using hp
  have hmax := max_length_parsedFiltersOf (nlQuery query)
  have hne : (parsedFiltersOf (nlQuery query)).isEmptyPF = false := by
    simp [ParsedFilters.isEmptyPF, hip]
  refine ⟨applyNLFilters (st.map Prod.snd) (parsedFiltersOf (nlQuery query)),
    ?_, hip, ?_⟩
  · cases hmin : (parsedFiltersOf (nlQuery query)).min_length <;>
      simp [natural_language_filter, hne, hmax, hmin]
  · intro r hr
    exact pal_of_mem_applyNLFilters _ _ _ _ hip hr

/-- C10 witness: "the first vowel" parses with is_palindrome = false over
the empty store. -/
theorem claim_C10_first_vowel_nonpalindrome_witness :
    ∃ rs, natural_language_filter [] ("the first vowel")
        = Except.ok (rs, parsedFiltersOf (nlQuery ("the first vowel")))
      ∧ (parsedFiltersOf (nlQuery ("the first vowel"))).is_palindrome = some false
      ∧ ∀ r ∈ rs, r.properties.is_palindrome = false :=
  claim_C10_first_vowel_nonpalindrome [] ("the first vowel") (by decide)
    (by decide) (by decide)

end StringAnalyzer
